import Mathlib

/-!
# Verification of the RAG chatbot's retrieval and session-context engine

Shallow embedding of `src/api/app/services/rag_service.py` (class `RAGService`)
together with the configuration defaults of `src/api/app/config.py`.

Modelling conventions:
* The embedding provider is opaque; for a fixed query, each stored chunk row
  carries the distance `c.embedding <=> query_embedding` that the store would
  compute for it (field `dist`).  The SQL `ORDER BY c.embedding <=> %s::vector`
  is modelled by sorting on that field; `1 - (c.embedding <=> %s::vector)` is
  the `similarity` of a returned row.
* Database reads/writes that the Python wraps in `try/except` are modelled
  with explicit failure flags (`readFails`, `writeFails`): a raised exception
  corresponds to the flag being `true`, and the `except` handler's behaviour
  is written out.
* The Ollama generation call is opaque; its outcome for the one request under
  consideration is a `GenOutcome` (success with content, read timeout,
  connection error, or any other exception with its message).
-/

namespace RagService

/-- Configuration default `TOP_K` from `config.py`. -/
def TOP_K : Nat := 5

/-- Configuration default `MAX_CONTEXT_CHARS` from `config.py`. -/
def MAX_CONTEXT_CHARS : Nat := 2000

/-- A row of the `chunks` table joined with `documents`, for a fixed query:
`dist` is the value of `c.embedding <=> query_embedding` for this chunk. -/
structure ChunkRow where
  content : String
  title : String
  source : String
  document_id : String
  dist : ℚ
deriving DecidableEq, Repr

/-- A row returned by `_search_similar_chunks`: the SQL computes
`1 - (c.embedding <=> %s::vector) as similarity`. -/
structure SearchResult where
  content : String
  title : String
  source : String
  document_id : String
  similarity : ℚ
deriving DecidableEq, Repr

/-- The SELECT projection: carry the chunk over with `similarity = 1 - dist`. -/
def toResult (c : ChunkRow) : SearchResult :=
  ⟨c.content, c.title, c.source, c.document_id, 1 - c.dist⟩

/-- `ORDER BY c.embedding <=> %s::vector` (ascending distance). -/
def sortByDist (cs : List ChunkRow) : List ChunkRow :=
  cs.insertionSort (fun a b => a.dist ≤ b.dist)

instance : IsTotal ChunkRow (fun a b => a.dist ≤ b.dist) :=
  ⟨fun a b => le_total a.dist b.dist⟩

instance : IsTrans ChunkRow (fun a b => a.dist ≤ b.dist) :=
  ⟨fun _ _ _ h h' => le_trans h h'⟩

/-- `RAGService._search_similar_chunks` (rag_service.py, lines 215-291).
If a document is prioritized, run the `WHERE d.id = %s` query first and
return its rows whenever there is at least one; otherwise (or with no
priority document) run the unrestricted query.  Both queries are
`ORDER BY` distance `LIMIT top_k`. -/
def search_similar_chunks (chunks : List ChunkRow) (top_k : Nat)
    (prioritize_document_id : Option String) : List SearchResult :=
  let general := ((sortByDist chunks).take top_k).map toResult
  match prioritize_document_id with
  | some doc =>
      let results_specific :=
        ((sortByDist (chunks.filter (fun c => c.document_id == doc))).take top_k).map toResult
      if 0 < results_specific.length then results_specific else general
  | none => general

end RagService

namespace RagService

/-- The conclusion of claim C1 about `search_similar_chunks` with a priority
document: only rows of that document, count `min top_k (#chunks of doc)`
(so no similarity filter drops anything), ranked by descending similarity,
and each row is some stored chunk of the document with `similarity = 1 - dist`. -/
def PrioritySearchOK (chunks : List ChunkRow) (top_k : Nat) (doc : String) : Prop :=
  (∀ r ∈ search_similar_chunks chunks top_k (some doc), r.document_id = doc) ∧
  (search_similar_chunks chunks top_k (some doc)).length
    = min top_k (chunks.filter (fun c => c.document_id == doc)).length ∧
  List.Sorted (fun a b : SearchResult => b.similarity ≤ a.similarity)
    (search_similar_chunks chunks top_k (some doc)) ∧
  (∀ r ∈ search_similar_chunks chunks top_k (some doc),
    ∃ c ∈ chunks, c.document_id = doc ∧ r = toResult c)

lemma mem_sortByDist {c : ChunkRow} {cs : List ChunkRow} :
    c ∈ sortByDist cs ↔ c ∈ cs :=
  List.Perm.mem_iff (List.perm_insertionSort _ cs)

lemma length_sortByDist (cs : List ChunkRow) :
    (sortByDist cs).length = cs.length :=
  List.Perm.length_eq (List.perm_insertionSort _ cs)

lemma sorted_sortByDist (cs : List ChunkRow) :
    List.Sorted (fun a b : ChunkRow => a.dist ≤ b.dist) (sortByDist cs) :=
  List.sorted_insertionSort _ cs

lemma sorted_mapped_take (cs : List ChunkRow) (k : Nat) :
    List.Sorted (fun a b : SearchResult => b.similarity ≤ a.similarity)
      (((sortByDist cs).take k).map toResult) := by
  have h1 : List.Pairwise (fun a b : ChunkRow => a.dist ≤ b.dist) ((sortByDist cs).take k) :=
    List.Pairwise.sublist (List.take_sublist k _) (sorted_sortByDist cs)
  rw [List.Sorted, List.pairwise_map]
  exact h1.imp fun h => sub_le_sub_left h 1

lemma mem_mapped_take {cs : List ChunkRow} {k : Nat} {r : SearchResult}
    (hr : r ∈ ((sortByDist cs).take k).map toResult) :
    ∃ c ∈ cs, r = toResult c := by
  obtain ⟨c, hc, rfl⟩ := List.mem_map.mp hr
  exact ⟨c, mem_sortByDist.mp ((List.take_sublist k _).mem hc), rfl⟩

/-- Claim C1: with a priority document that owns at least one stored chunk,
`_search_similar_chunks` returns only that document's chunks, ranked by
`similarity = 1 - distance`, limited to `top_k`, with no similarity filter. -/
theorem prioritized_search_forced (chunks : List ChunkRow) (top_k : Nat) (doc : String)
    (h : chunks.filter (fun c => c.document_id == doc) ≠ []) :
    PrioritySearchOK chunks top_k doc := by
  have hlen : (((sortByDist (chunks.filter (fun c => c.document_id == doc))).take
        top_k).map toResult).length
      = min top_k (chunks.filter (fun c => c.document_id == doc)).length := by
    rw [List.length_map, List.length_take, length_sortByDist]
  by_cases hk : 0 < (((sortByDist (chunks.filter (fun c => c.document_id == doc))).take
      top_k).map toResult).length
  · have hsearch : search_similar_chunks chunks top_k (some doc)
        = ((sortByDist (chunks.filter (fun c => c.document_id == doc))).take top_k).map
            toResult := by
      simp only [search_similar_chunks]
      rw [if_pos hk]
    refine ⟨?_, ?_, ?_, ?_⟩
    · intro r hr
      rw [hsearch] at hr
      obtain ⟨c, hc, rfl⟩ := mem_mapped_take hr
      obtain ⟨-, hdoc⟩ := List.mem_filter.mp hc
      simpa [toResult] using (by simpa using hdoc : c.document_id = doc)
    · rw [hsearch, hlen]
    · rw [hsearch]
      exact sorted_mapped_take _ _
    · intro r hr
      rw [hsearch] at hr
      obtain ⟨c, hc, rfl⟩ := mem_mapped_take hr
      obtain ⟨hcc, hdoc⟩ := List.mem_filter.mp hc
      exact ⟨c, hcc, by simpa using hdoc, rfl⟩
  · -- the specific query returned no rows even though the document has chunks,
    -- which forces `top_k = 0`; then the fallback query is also empty
    have h0 : min top_k (chunks.filter (fun c => c.document_id == doc)).length = 0 := by
      rw [← hlen]; exact Nat.eq_zero_of_not_pos hk
    have htk : top_k = 0 := by
      rcases Nat.min_eq_zero_iff.mp h0 with h' | h'
      · exact h'
      · exact absurd (List.length_eq_zero.mp h') h
    subst htk
    have hsearch : search_similar_chunks chunks 0 (some doc) = [] := by
      simp only [search_similar_chunks]
      rw [if_neg hk]
      simp
    refine ⟨?_, ?_, ?_, ?_⟩
    · intro r hr; rw [hsearch] at hr; cases hr
    · rw [hsearch, h0]; rfl
    · rw [hsearch]; exact List.sorted_nil
    · intro r hr; rw [hsearch] at hr; cases hr

/-- Witness for C1: a document whose single chunk has similarity
`1 - 9/10 = 1/10 < 0.3`, returned anyway. -/
theorem prioritized_search_forced_witness :
    ([(⟨"c1", "t1", "s1", "d1", (9 : ℚ)/10⟩ : ChunkRow)].filter
        (fun c => c.document_id == "d1") ≠ []) ∧
    PrioritySearchOK [⟨"c1", "t1", "s1", "d1", (9 : ℚ)/10⟩] 5 "d1" :=
  ⟨by decide, prioritized_search_forced _ 5 "d1" (by decide)⟩

/-- Claim C6: a priority document with zero stored chunks falls through to
the unrestricted search over all documents. -/
theorem priority_empty_falls_back (chunks : List ChunkRow) (top_k : Nat) (doc : String)
    (h : chunks.filter (fun c => c.document_id == doc) = []) :
    search_similar_chunks chunks top_k (some doc)
      = search_similar_chunks chunks top_k none := by
  simp [search_similar_chunks, h, sortByDist]

/-- Witness for C6: the store has a chunk, but not of the priority document. -/
theorem priority_empty_falls_back_witness :
    (([(⟨"c1", "t1", "s1", "d1", (1 : ℚ)/2⟩ : ChunkRow)].filter
        (fun c => c.document_id == "d2")) = []) ∧
    search_similar_chunks [⟨"c1", "t1", "s1", "d1", (1 : ℚ)/2⟩] 5 (some "d2")
      = search_similar_chunks [⟨"c1", "t1", "s1", "d1", (1 : ℚ)/2⟩] 5 none :=
  ⟨by decide, priority_empty_falls_back _ 5 "d2" (by decide)⟩

/-! ## Context assembly (`answer_question`, rag_service.py lines 352-389) -/

/-- `SIMILARITY_THRESHOLD = 0.3` from `answer_question` (written `mkRat 3 10`
so that concrete comparisons evaluate; equal to `3/10`, see
`SIMILARITY_THRESHOLD_eq`). -/
def SIMILARITY_THRESHOLD : ℚ := mkRat 3 10

lemma SIMILARITY_THRESHOLD_eq : SIMILARITY_THRESHOLD = 3/10 := by
  norm_num [SIMILARITY_THRESHOLD, Rat.mkRat_eq_divInt, Rat.divInt_eq_div]

/-- A `(title, source, similarity)` source entry tracked during assembly. -/
structure SourceInfo where
  title : String
  source : String
  similarity : ℚ
deriving DecidableEq, Repr

/-- `if source_info not in sources: sources.append(source_info)`. -/
def pushSource (srcs : List SourceInfo) (r : SearchResult) : List SourceInfo :=
  if (⟨r.title, r.source, r.similarity⟩ : SourceInfo) ∈ srcs then srcs
  else srcs ++ [⟨r.title, r.source, r.similarity⟩]

/-- The `for chunk in similar_chunks:` loop of `answer_question`:
skip a chunk below the similarity threshold (`continue`), stop the whole
loop once a chunk would push `total_chars` over the budget (`break`),
otherwise append the chunk's text and source.  Returns the final
`(context_parts, sources, total_chars)`. -/
def assembleLoop (maxChars : Nat) :
    List SearchResult → List String → List SourceInfo → Nat →
      List String × List SourceInfo × Nat
  | [], parts, srcs, total => (parts, srcs, total)
  | c :: rest, parts, srcs, total =>
      if c.similarity < SIMILARITY_THRESHOLD then
        assembleLoop maxChars rest parts srcs total
      else if maxChars < total + c.content.length then
        (parts, srcs, total)
      else
        assembleLoop maxChars rest (parts ++ [c.content]) (pushSource srcs c)
          (total + c.content.length)

/-- Assembly from the initial state (`context_parts = []`, `sources = []`,
`total_chars = 0`). -/
def assembleContext (maxChars : Nat) (results : List SearchResult) :
    List String × List SourceInfo × Nat :=
  assembleLoop maxChars results [] [] 0

/-- `"\n\n".join(context_parts)`. -/
def joinParts : List String → String
  | [] => ""
  | [p] => p
  | p :: ps => p ++ "\n\n" ++ joinParts ps

/-- Total character count of a list of chunk texts. -/
def sumLens (parts : List String) : Nat :=
  (parts.map String.length).sum

lemma sumLens_append (a b : List String) : sumLens (a ++ b) = sumLens a + sumLens b := by
  simp [sumLens]

lemma assembleLoop_total_le (maxChars : Nat) (results : List SearchResult) :
    ∀ parts srcs total, total ≤ maxChars →
      (assembleLoop maxChars results parts srcs total).2.2 ≤ maxChars := by
  induction results with
  | nil => intro parts srcs total h; exact h
  | cons c rest ih =>
      intro parts srcs total h
      simp only [assembleLoop]
      by_cases h1 : c.similarity < SIMILARITY_THRESHOLD
      · rw [if_pos h1]; exact ih _ _ _ h
      · rw [if_neg h1]
        by_cases h2 : maxChars < total + c.content.length
        · rw [if_pos h2]; exact h
        · rw [if_neg h2]; exact ih _ _ _ (Nat.le_of_not_lt h2)

lemma assembleLoop_total_eq (maxChars : Nat) (results : List SearchResult) :
    ∀ parts srcs total, total = sumLens parts →
      (assembleLoop maxChars results parts srcs total).2.2
        = sumLens (assembleLoop maxChars results parts srcs total).1 := by
  induction results with
  | nil => intro parts srcs total h; exact h
  | cons c rest ih =>
      intro parts srcs total h
      simp only [assembleLoop]
      by_cases h1 : c.similarity < SIMILARITY_THRESHOLD
      · rw [if_pos h1]; exact ih _ _ _ h
      · rw [if_neg h1]
        by_cases h2 : maxChars < total + c.content.length
        · rw [if_pos h2]; exact h
        · rw [if_neg h2]
          exact ih _ _ _ (by rw [h, sumLens_append]; simp [sumLens])

lemma assembleLoop_parts_from (maxChars : Nat) (results : List SearchResult) :
    ∀ parts srcs total, ∀ p ∈ (assembleLoop maxChars results parts srcs total).1,
      p ∈ parts ∨ ∃ r ∈ results, SIMILARITY_THRESHOLD ≤ r.similarity ∧ p = r.content := by
  induction results with
  | nil => intro parts srcs total p hp; exact .inl hp
  | cons c rest ih =>
      intro parts srcs total p hp
      simp only [assembleLoop] at hp
      by_cases h1 : c.similarity < SIMILARITY_THRESHOLD
      · rw [if_pos h1] at hp
        rcases ih _ _ _ p hp with h | ⟨r, hr, hs, he⟩
        · exact .inl h
        · exact .inr ⟨r, List.mem_cons_of_mem _ hr, hs, he⟩
      · rw [if_neg h1] at hp
        by_cases h2 : maxChars < total + c.content.length
        · rw [if_pos h2] at hp; exact .inl hp
        · rw [if_neg h2] at hp
          rcases ih _ _ _ p hp with h | ⟨r, hr, hs, he⟩
          · rcases List.mem_append.mp h with h | h
            · exact .inl h
            · exact .inr ⟨c, List.mem_cons_self _ _, not_lt.mp h1, by simpa using h⟩
          · exact .inr ⟨r, List.mem_cons_of_mem _ hr, hs, he⟩

lemma assembleLoop_parts_sublist (maxChars : Nat) (results : List SearchResult) :
    ∀ parts srcs total, ∃ δ,
      (assembleLoop maxChars results parts srcs total).1 = parts ++ δ ∧
      δ.Sublist (results.map (fun r => r.content)) := by
  induction results with
  | nil =>
      intro parts srcs total
      exact ⟨[], by simp [assembleLoop], List.nil_sublist _⟩
  | cons c rest ih =>
      intro parts srcs total
      simp only [assembleLoop, List.map_cons]
      by_cases h1 : c.similarity < SIMILARITY_THRESHOLD
      · rw [if_pos h1]
        obtain ⟨δ, hδ, hsub⟩ := ih parts srcs total
        exact ⟨δ, hδ, hsub.trans (List.sublist_cons_self _ _)⟩
      · rw [if_neg h1]
        by_cases h2 : maxChars < total + c.content.length
        · rw [if_pos h2]
          exact ⟨[], by simp, List.nil_sublist _⟩
        · rw [if_neg h2]
          obtain ⟨δ, hδ, hsub⟩ :=
            ih (parts ++ [c.content]) (pushSource srcs c) (total + c.content.length)
          refine ⟨c.content :: δ, ?_, List.cons_sublist_cons.mpr hsub⟩
          rw [hδ, List.append_assoc]
          rfl

lemma joinParts_length : ∀ parts : List String,
    (joinParts parts).length = sumLens parts + 2 * (parts.length - 1)
  | [] => by simp [joinParts, sumLens]
  | [p] => by simp [joinParts, sumLens]
  | p :: q :: ps => by
      have ih := joinParts_length (q :: ps)
      have hsep : ("\n\n" : String).length = 2 := rfl
      have : joinParts (p :: q :: ps) = p ++ "\n\n" ++ joinParts (q :: ps) := rfl
      rw [this, String.length_append, String.length_append, hsep]
      simp only [sumLens, List.map_cons, List.sum_cons, List.length_cons] at ih ⊢
      omega

/-- Claim C2 (amended): context assembly accumulates whole chunk texts in
rank order (the accumulated parts are a subsequence of the ranked results'
texts), the accumulated character total never exceeds the budget (an
over-budget chunk is excluded entirely, never truncated), and the assembled
context string adds a two-character `"\n\n"` separator between consecutive
chunks, so its length is the accumulated total plus
`2 * (number of chunks - 1)` and can exceed the budget. -/
theorem context_budget_whole_chunks (maxChars : Nat) (results : List SearchResult) :
    (assembleContext maxChars results).2.2 ≤ maxChars ∧
    (assembleContext maxChars results).2.2 = sumLens (assembleContext maxChars results).1 ∧
    (∀ p ∈ (assembleContext maxChars results).1,
      ∃ r ∈ results, SIMILARITY_THRESHOLD ≤ r.similarity ∧ p = r.content) ∧
    (assembleContext maxChars results).1.Sublist (results.map (fun r => r.content)) ∧
    (joinParts (assembleContext maxChars results).1).length
      = sumLens (assembleContext maxChars results).1
        + 2 * ((assembleContext maxChars results).1.length - 1) := by
  refine ⟨assembleLoop_total_le _ _ _ _ _ (Nat.zero_le _),
    assembleLoop_total_eq _ _ _ _ _ rfl, ?_, ?_, joinParts_length _⟩
  · intro p hp
    rcases assembleLoop_parts_from _ _ _ _ _ p hp with h | h
    · cases h
    · exact h
  · obtain ⟨δ, hδ, hsub⟩ := assembleLoop_parts_sublist maxChars results [] [] 0
    rw [show assembleContext maxChars results = assembleLoop maxChars results [] [] 0 from rfl,
      hδ, List.nil_append]
    exact hsub

/-- Claim C3: a result with similarity exactly `0.3` is included by the
assembly loop (budget permitting), and a result with similarity strictly
below `0.3` is skipped. -/
theorem threshold_boundary (c d : SearchResult) (rest : List SearchResult)
    (parts : List String) (srcs : List SourceInfo) (total maxChars : Nat)
    (hc : c.similarity = 3/10) (hbudget : total + c.content.length ≤ maxChars)
    (hd : d.similarity < 3/10) :
    assembleLoop maxChars (c :: rest) parts srcs total
      = assembleLoop maxChars rest (parts ++ [c.content]) (pushSource srcs c)
          (total + c.content.length) ∧
    assembleLoop maxChars (d :: rest) parts srcs total
      = assembleLoop maxChars rest parts srcs total := by
  constructor
  · simp only [assembleLoop]
    rw [if_neg (by rw [hc, SIMILARITY_THRESHOLD_eq]; exact lt_irrefl _),
      if_neg (not_lt.mpr hbudget)]
  · simp only [assembleLoop]
    rw [if_pos (show d.similarity < SIMILARITY_THRESHOLD by
      rw [SIMILARITY_THRESHOLD_eq]; exact hd)]

/-- `0.29 < 0.3` as rationals, with the left side in kernel-evaluable form. -/
lemma mkRat_29_100_lt : (mkRat 29 100 : ℚ) < 3/10 := by
  norm_num [Rat.mkRat_eq_divInt, Rat.divInt_eq_div]

/-- Witness for C3 at similarity `0.30` (included) and `0.29` (skipped). -/
theorem threshold_boundary_witness :
    ((⟨"aa", "t", "s", "d", 3/10⟩ : SearchResult).similarity = 3/10) ∧
    (0 + ("aa" : String).length ≤ 2000) ∧
    ((⟨"bb", "t", "s", "d", mkRat 29 100⟩ : SearchResult).similarity < 3/10) ∧
    (assembleLoop 2000 [⟨"aa", "t", "s", "d", 3/10⟩] [] [] 0
        = assembleLoop 2000 [] ([] ++ ["aa"]) (pushSource [] ⟨"aa", "t", "s", "d", 3/10⟩)
            (0 + ("aa" : String).length) ∧
      assembleLoop 2000 [⟨"bb", "t", "s", "d", mkRat 29 100⟩] [] [] 0
        = assembleLoop 2000 [] [] [] 0) :=
  ⟨rfl, by decide, mkRat_29_100_lt,
    threshold_boundary _ _ [] [] [] 0 2000 rfl (by decide) mkRat_29_100_lt⟩

/-! ## String helpers (Python `in`, `strip`, `startswith`, `split`) -/

/-- Python's whitespace for `str.strip` restricted to the characters that can
occur here. -/
def isSpaceC (c : Char) : Bool :=
  c == ' ' || c == '\t' || c == '\n' || c == '\r'

/-- `str.strip()` on the underlying character list. -/
def trimL (l : List Char) : List Char :=
  ((l.dropWhile isSpaceC).reverse.dropWhile isSpaceC).reverse

/-- `str.startswith` on character lists. -/
def isPrefL : List Char → List Char → Bool
  | [], _ => true
  | _ :: _, [] => false
  | a :: as, b :: bs => a == b && isPrefL as bs

def containsL (needle : List Char) : List Char → Bool
  | [] => needle.isEmpty
  | b :: bs => isPrefL needle (b :: bs) || containsL needle bs

/-- Python's `needle in hay` on strings. -/
def strContains (hay needle : String) : Bool :=
  containsL needle.data hay.data

/-- `str.lower()` (character-wise; the questions and triggers involved are
covered by `Char.toLower`). -/
def pyLower (s : String) : String :=
  String.mk (s.data.map Char.toLower)

/-- `str.strip()`. -/
def pyStrip (s : String) : String :=
  String.mk (trimL s.data)

/-- Prepend a character to the first field of a split. -/
def consHead (c : Char) : List (List Char) → List (List Char)
  | l :: ls => (c :: l) :: ls
  | [] => [[c]]

/-- Python's `text.split('\n')` (`"" ↦ [""]`, separators not kept). -/
def splitNlL : List Char → List (List Char)
  | [] => [[]]
  | c :: cs =>
      if c == '\n' then [] :: splitNlL cs
      else consHead c (splitNlL cs)

/-! ## Session memory and durable history -/

/-- Role of an in-memory buffer message (`add_user_message` /
`add_ai_message`). -/
inductive Role where
  | user
  | assistant
deriving DecidableEq, Repr

/-- One message of the in-memory conversation buffer. -/
structure Msg where
  role : Role
  content : String
deriving DecidableEq, Repr

/-- A row of the `chat_history` table for one session. -/
structure HistTurn where
  turn : Nat
  role : String
  content : String
deriving DecidableEq, Repr

/-- `RAGService._load_history_from_db` (lines 96-112): `SELECT role, content,
turn ... ORDER BY turn DESC LIMIT limit`, reversed to chronological order;
a database error is caught, logged and yields `[]`. -/
def load_history_from_db (readFails : Bool) (rows : List HistTurn) (limit : Nat) :
    List HistTurn :=
  if readFails then []
  else ((rows.insertionSort (fun a b => b.turn ≤ a.turn)).take limit).reverse

/-- `COALESCE(MAX(turn), 0)` over a session's rows. -/
def maxTurn (rows : List HistTurn) : Nat :=
  rows.foldl (fun a r => max a r.turn) 0

/-- `RAGService._save_message_to_db` (lines 73-94): read the maximum turn
number, insert the message with turn `max + 1`; a database error is caught,
logged and swallowed, leaving the table unchanged. -/
def save_message_to_db (writeFails : Bool) (rows : List HistTurn)
    (role content : String) : List HistTurn :=
  if writeFails then rows
  else rows ++ [⟨maxTurn rows + 1, role, content⟩]

/-- The seeding loop of `_get_memory` (lines 59-67): rows with role
`user` / `assistant` become buffer messages, any other role is skipped. -/
def seedBuffer : List HistTurn → List Msg
  | [] => []
  | m :: rest =>
      if m.role == "user" then ⟨Role.user, m.content⟩ :: seedBuffer rest
      else if m.role == "assistant" then ⟨Role.assistant, m.content⟩ :: seedBuffer rest
      else seedBuffer rest

/-- `RAGService._get_memory` (lines 48-71): return the session's existing
buffer, or seed a fresh one from the (at most) 10 most recent durable turns. -/
def get_memory (readFails : Bool) (buffer : Option (List Msg))
    (rows : List HistTurn) : List Msg :=
  match buffer with
  | some b => b
  | none => seedBuffer (load_history_from_db readFails rows 10)

/-! ## History rendering and the orchestrator's re-parsing -/

/-- `"Human: "` / `"AI: "` prefixes of a rendered buffer line. -/
def rolePfxL : Role → List Char
  | .user => ("Human: ").data
  | .assistant => ("AI: ").data

/-- The rendered line for one buffer message. -/
def lineOfMsg (m : Msg) : List Char :=
  rolePfxL m.role ++ m.content.data

/-- `'\n'.join` on character lists. -/
def joinNlL : List (List Char) → List Char
  | [] => []
  | [l] => l
  | l :: ls => l ++ '\n' :: joinNlL ls

/-- Modelled from the spec: the buffer's rendering to the `chat_history`
text — produced by the external langchain `ConversationBufferMemory`
(`return_messages=False`), which is not part of this repository.  The spec
fixes it as one line per turn, oldest first, `"Human: <content>"` /
`"AI: <content>"`, joined by newlines. -/
def render_history_text (buf : List Msg) : String :=
  String.mk (joinNlL (buf.map lineOfMsg))

/-- The history re-parsing loop of `answer_question` (lines 437-449): strip
each line; a `"Human: "` prefix yields a user message and an `"AI: "` prefix
an assistant message (the prefix removed — under the `startswith` guard,
`line.replace(prefix, '', 1)` removes exactly the leading prefix); any other
line is skipped. -/
def parseLines : List (List Char) → List Msg
  | [] => []
  | l :: ls =>
      let t := trimL l
      if isPrefL ("Human: ").data t then
        ⟨Role.user, String.mk (t.drop ("Human: ").data.length)⟩ :: parseLines ls
      else if isPrefL ("AI: ").data t then
        ⟨Role.assistant, String.mk (t.drop ("AI: ").data.length)⟩ :: parseLines ls
      else parseLines ls

/-- Lines 436-449 of `answer_question`: the history text is re-parsed only
when non-empty (`if history_text:`), split on `'\n'`. -/
def parseHistory (history_text : String) : List Msg :=
  if history_text.data.isEmpty then [] else parseLines (splitNlL history_text.data)

/-! ## `answer_question` (lines 293-505) -/

/-- The dict returned by `answer_question`. -/
structure Response where
  answer : String
  sources : List SourceInfo
  context_size : Nat
deriving DecidableEq, Repr

/-- Outcome of the one Ollama `/api/chat` call of this request: success with
the returned content, `httpx.ReadTimeout`, `httpx.ConnectError`, or any
other exception with its `str(e)`. -/
inductive GenOutcome where
  | ok (content : String)
  | readTimeout
  | connectError
  | err (msg : String)
deriving DecidableEq, Repr

/-- A row of the `documents` table as fetched by `_get_document_info`. -/
structure DocInfo where
  title : String
  source : String
  created_at : String
deriving DecidableEq, Repr

/-- The per-session state touched by `answer_question`: the session's entry
in `self.memories` (absent until `_get_memory` creates it), its entry in
`self.session_documents`, and its rows of the durable `chat_history` table. -/
structure SessionState where
  buffer : Option (List Msg)
  pin : Option String
  dbRows : List HistTurn
deriving DecidableEq, Repr

/-- The external world of one `answer_question` request: the chunk store
(with per-chunk distances for this question's embedding), the generation
outcome, database failure flags for the history read/write of this request,
and `_get_document_info`'s lookup result per document id. -/
structure Env where
  chunks : List ChunkRow
  gen : GenOutcome
  readFails : Bool
  writeFails : Bool
  docInfo : String → Option DocInfo

/-- The trigger phrases of the forget-document command (line 313). -/
def forgetTriggers : List String :=
  ["esqueça o documento", "esquecer documento", "limpar contexto", "novo contexto"]

/-- The trigger phrases of the which-document command (line 322). -/
def whichDocTriggers : List String :=
  ["qual documento", "que documento", "documento ativo", "documento atual"]

/-- Lines 338-344: `prioritize_doc_id = recent_document_id`, falling back to
the session's pin when absent. -/
def priorityOf (recent_document_id pin : Option String) : Option String :=
  match recent_document_id with
  | some d => some d
  | none => pin

/-- Lines 358-389: the `context` string assembled from the retrieved rows —
the no-documents sentinel, the nothing-relevant sentinel, or the joined
chunk texts. -/
def contextOf (results : List SearchResult) : String :=
  if results.isEmpty then "Nenhum documento foi fornecido ainda."
  else if (assembleContext MAX_CONTEXT_CHARS results).1.isEmpty then
    "Não encontrei informações relevantes nos documentos disponíveis."
  else joinParts (assembleContext MAX_CONTEXT_CHARS results).1

/-- Line 500: `len(context) if context_parts else 0`. -/
def contextSizeOf (results : List SearchResult) : Nat :=
  if (assembleContext MAX_CONTEXT_CHARS results).1.isEmpty then 0
  else (contextOf results).length

/-- The deduplicated source entries collected by the assembly loop. -/
def sourcesOf (results : List SearchResult) : List SourceInfo :=
  (assembleContext MAX_CONTEXT_CHARS results).2.1

/-- Lines 460-485: the answer string produced by the generation call and its
except-handlers — the stripped model output on success, otherwise the
handler's substituted error string. -/
def substitutedAnswer : GenOutcome → String
  | .ok content => pyStrip content
  | .readTimeout => "Desculpe, o modelo demorou muito para responder. Tente uma pergunta mais simples ou aguarde um momento."
  | .connectError => "Erro ao conectar com o modelo de IA. Verifique se o serviço Ollama está rodando."
  | .err msg => "Erro ao gerar resposta: " ++ msg

/-- `RAGService.answer_question` (lines 293-505).  Prompt construction
(lines 400-457) only feeds the opaque generation call and is omitted here;
its history re-parsing logic is modelled by `parseLines` / `parseHistory`
for the round-trip property.  Returns the response dict together with the
session state after the call. -/
def answer_question (env : Env) (st : SessionState) (question : String)
    (recent_document_id : Option String) : Response × SessionState :=
  let question_lower := pyStrip (pyLower question)
  if forgetTriggers.any (fun cmd => strContains question_lower cmd) then
    ({ answer := "Ok! Contexto de documento limpo. Agora buscarei em todos os documentos disponíveis.",
       sources := [], context_size := 0 },
     { st with pin := none })
  else if whichDocTriggers.any (fun cmd => strContains question_lower cmd) then
    match st.pin with
    | some active_doc_id =>
        match env.docInfo active_doc_id with
        | some info =>
            ({ answer := "Estou priorizando o documento: **" ++ info.title
                 ++ "** (enviado em " ++ info.created_at ++ ")",
               sources := [⟨info.title, info.source, 1⟩], context_size := 0 }, st)
        | none =>
            ({ answer := "No momento, não há documento ativo. Estou buscando em todos os documentos disponíveis.",
               sources := [], context_size := 0 }, st)
    | none =>
        ({ answer := "No momento, não há documento ativo. Estou buscando em todos os documentos disponíveis.",
           sources := [], context_size := 0 }, st)
  else
    let similar_chunks :=
      search_similar_chunks env.chunks TOP_K (priorityOf recent_document_id st.pin)
    let memory := get_memory env.readFails st.buffer st.dbRows
    let answer := substitutedAnswer env.gen
    let memory2 := memory ++ [⟨Role.user, question⟩, ⟨Role.assistant, answer⟩]
    let db1 := save_message_to_db env.writeFails st.dbRows "user" question
    let db2 := save_message_to_db env.writeFails db1 "assistant" answer
    ({ answer := answer, sources := sourcesOf similar_chunks,
       context_size := contextSizeOf similar_chunks },
     { buffer := some memory2, pin := st.pin, dbRows := db2 })

/-- Is the generation outcome one of the caught failures? -/
def isGenFailure : GenOutcome → Bool
  | .ok _ => false
  | _ => true

/-! ## Claim C4: the forget-document command -/

/-- Claim C4: a question whose lower-cased trimmed text contains a
forget-document trigger clears the session pin, returns the fixed
confirmation with no sources and zero context size, and leaves the in-memory
buffer and the durable history untouched; the result does not depend on the
retrieval, generation or database environment (no generation call, no
retrieval, no history mutation). -/
theorem forget_command (env : Env) (st : SessionState) (question : String)
    (recent_document_id : Option String)
    (h : forgetTriggers.any (fun cmd => strContains (pyStrip (pyLower question)) cmd) = true) :
    answer_question env st question recent_document_id
      = ({ answer := "Ok! Contexto de documento limpo. Agora buscarei em todos os documentos disponíveis.",
           sources := [], context_size := 0 },
         { buffer := st.buffer, pin := none, dbRows := st.dbRows }) := by
  simp only [answer_question]
  rw [if_pos h]

/-- Witness for C4: the exact trigger question `"esqueça o documento"` with a
pinned session. -/
theorem forget_command_witness :
    (forgetTriggers.any
        (fun cmd => strContains (pyStrip (pyLower "esqueça o documento")) cmd) = true) ∧
    answer_question ⟨[], .ok "hi", false, false, fun _ => none⟩
        ⟨none, some "doc1", []⟩ "esqueça o documento" none
      = (⟨"Ok! Contexto de documento limpo. Agora buscarei em todos os documentos disponíveis.",
          [], 0⟩,
         ⟨none, none, []⟩) :=
  ⟨by decide, forget_command _ _ _ none (by decide)⟩

/-! ## Claims C5 and C10: generation failures -/

lemma answer_question_main_answer (env : Env) (st : SessionState) (question : String)
    (rd : Option String)
    (hnc1 : forgetTriggers.any (fun cmd => strContains (pyStrip (pyLower question)) cmd) = false)
    (hnc2 : whichDocTriggers.any (fun cmd => strContains (pyStrip (pyLower question)) cmd) = false) :
    (answer_question env st question rd).1.answer = substitutedAnswer env.gen := by
  simp only [answer_question]
  rw [if_neg (by simp [hnc1]), if_neg (by simp [hnc2])]

/-- Claim C5 (amended): a generation failure is never propagated —
`answer_question` still returns a response whose answer is the handler's
localized substituted string; for a timeout or connection error that string
is fixed, but for any other provider error it embeds the error's own message
(`"Erro ao gerar resposta: <msg>"`), so it is not one fixed string. -/
theorem gen_failure_downgraded (env : Env) (st : SessionState) (question : String)
    (rd : Option String)
    (hnc1 : forgetTriggers.any (fun cmd => strContains (pyStrip (pyLower question)) cmd) = false)
    (hnc2 : whichDocTriggers.any (fun cmd => strContains (pyStrip (pyLower question)) cmd) = false)
    (_hfail : isGenFailure env.gen = true) :
    (answer_question env st question rd).1.answer = substitutedAnswer env.gen ∧
    (env.gen = GenOutcome.readTimeout →
      (answer_question env st question rd).1.answer
        = "Desculpe, o modelo demorou muito para responder. Tente uma pergunta mais simples ou aguarde um momento.") ∧
    (env.gen = GenOutcome.connectError →
      (answer_question env st question rd).1.answer
        = "Erro ao conectar com o modelo de IA. Verifique se o serviço Ollama está rodando.") ∧
    (∀ msg, env.gen = GenOutcome.err msg →
      (answer_question env st question rd).1.answer = "Erro ao gerar resposta: " ++ msg) := by
  have h := answer_question_main_answer env st question rd hnc1 hnc2
  refine ⟨h, fun hg => ?_, fun hg => ?_, fun msg hg => ?_⟩ <;> rw [h, hg] <;> rfl

/-- Witness for the amended C5 at a concrete timed-out request. -/
theorem gen_failure_downgraded_witness :
    (forgetTriggers.any
        (fun cmd => strContains (pyStrip (pyLower "ola")) cmd) = false) ∧
    (whichDocTriggers.any
        (fun cmd => strContains (pyStrip (pyLower "ola")) cmd) = false) ∧
    (isGenFailure GenOutcome.readTimeout = true) ∧
    (answer_question ⟨[], .readTimeout, false, false, fun _ => none⟩
        ⟨none, none, []⟩ "ola" none).1.answer
      = substitutedAnswer GenOutcome.readTimeout :=
  ⟨by decide, by decide, by decide,
    (gen_failure_downgraded ⟨[], .readTimeout, false, false, fun _ => none⟩
      ⟨none, none, []⟩ "ola" none (by decide) (by decide) (by decide)).1⟩

/-- Counterexample to C5 as stated: two provider errors differing only in
their message yield different substituted answers, so the substituted answer
is not a fixed string. -/
theorem gen_failure_answer_not_fixed :
    (answer_question ⟨[], .err "boom A", false, false, fun _ => none⟩
        ⟨none, none, []⟩ "ola" none).1.answer
      ≠ (answer_question ⟨[], .err "boom B", false, false, fun _ => none⟩
        ⟨none, none, []⟩ "ola" none).1.answer := by
  decide

lemma maxTurn_append_one (rows : List HistTurn) (t : HistTurn) :
    maxTurn (rows ++ [t]) = max (maxTurn rows) t.turn := by
  simp [maxTurn, List.foldl_append]

/-- Claim C10: when the provider fails on a non-command question, the memory
update still runs exactly as for a success: the question and the substituted
answer are appended (user first, then assistant) to the in-memory buffer
and, with the durable store healthy, to the durable history under the next
two turn numbers. -/
theorem failure_exchange_recorded (env : Env) (st : SessionState) (question : String)
    (rd : Option String)
    (hnc1 : forgetTriggers.any (fun cmd => strContains (pyStrip (pyLower question)) cmd) = false)
    (hnc2 : whichDocTriggers.any (fun cmd => strContains (pyStrip (pyLower question)) cmd) = false)
    (_hfail : isGenFailure env.gen = true)
    (hw : env.writeFails = false) :
    (answer_question env st question rd).2.buffer
      = some (get_memory env.readFails st.buffer st.dbRows
          ++ [⟨Role.user, question⟩, ⟨Role.assistant, substitutedAnswer env.gen⟩]) ∧
    (answer_question env st question rd).2.dbRows
      = st.dbRows ++ [⟨maxTurn st.dbRows + 1, "user", question⟩,
          ⟨maxTurn st.dbRows + 2, "assistant", substitutedAnswer env.gen⟩] := by
  constructor
  · simp only [answer_question]
    rw [if_neg (by simp [hnc1]), if_neg (by simp [hnc2])]
  · simp only [answer_question]
    rw [if_neg (by simp [hnc1]), if_neg (by simp [hnc2])]
    show save_message_to_db env.writeFails
        (save_message_to_db env.writeFails st.dbRows "user" question) "assistant" _
      = _
    rw [hw]
    simp only [save_message_to_db, if_neg Bool.false_ne_true, maxTurn_append_one]
    rw [Nat.max_eq_right (Nat.le_succ _), List.append_assoc]
    cases env.gen <;> rfl

/-- Witness for C10: a timed-out request on a fresh session records the
question and the apology answer in buffer and durable history. -/
theorem failure_exchange_recorded_witness :
    (forgetTriggers.any
        (fun cmd => strContains (pyStrip (pyLower "ola")) cmd) = false) ∧
    (whichDocTriggers.any
        (fun cmd => strContains (pyStrip (pyLower "ola")) cmd) = false) ∧
    (isGenFailure GenOutcome.readTimeout = true) ∧
    ((⟨[], .readTimeout, false, false, fun _ => none⟩ : Env).writeFails = false) ∧
    ((answer_question ⟨[], .readTimeout, false, false, fun _ => none⟩
        ⟨none, none, []⟩ "ola" none).2.buffer
      = some (get_memory false none []
          ++ [⟨Role.user, "ola"⟩, ⟨Role.assistant, substitutedAnswer GenOutcome.readTimeout⟩]) ∧
    (answer_question ⟨[], .readTimeout, false, false, fun _ => none⟩
        ⟨none, none, []⟩ "ola" none).2.dbRows
      = [] ++ [⟨maxTurn [] + 1, "user", "ola"⟩,
          ⟨maxTurn [] + 2, "assistant", substitutedAnswer GenOutcome.readTimeout⟩]) :=
  ⟨by decide, by decide, by decide, rfl,
    failure_exchange_recorded ⟨[], .readTimeout, false, false, fun _ => none⟩
      ⟨none, none, []⟩ "ola" none (by decide) (by decide) (by decide) rfl⟩

/-! ## Claim C8: the in-memory buffer bound -/

lemma seedBuffer_length_le (h : List HistTurn) : (seedBuffer h).length ≤ h.length := by
  induction h with
  | nil => exact Nat.le_refl _
  | cons m rest ih =>
      simp only [seedBuffer]
      by_cases h1 : m.role == "user"
      · rw [if_pos h1]
        exact Nat.succ_le_succ ih
      · rw [if_neg h1]
        by_cases h2 : m.role == "assistant"
        · rw [if_pos h2]
          exact Nat.succ_le_succ ih
        · rw [if_neg h2]
          exact Nat.le_trans ih (Nat.le_succ _)

lemma load_history_length_le (readFails : Bool) (rows : List HistTurn) (limit : Nat) :
    (load_history_from_db readFails rows limit).length ≤ limit := by
  unfold load_history_from_db
  cases readFails with
  | true => rw [if_pos rfl]; exact Nat.zero_le _
  | false =>
      rw [if_neg Bool.false_ne_true, List.length_reverse, List.length_take]
      exact Nat.min_le_left _ _

/-- Claim C8 (amended): the buffer is seeded once from the store with at most
the 10 most recent turns, but it is not bounded afterwards: each answered
non-command question appends the question and the answer to it without any
trimming, growing it by two turns per exchange without bound. -/
theorem buffer_seeded_bounded_but_grows (env : Env) (st : SessionState) (question : String)
    (rd : Option String)
    (hb : st.buffer = none)
    (hnc1 : forgetTriggers.any (fun cmd => strContains (pyStrip (pyLower question)) cmd) = false)
    (hnc2 : whichDocTriggers.any (fun cmd => strContains (pyStrip (pyLower question)) cmd) = false) :
    (get_memory env.readFails st.buffer st.dbRows).length ≤ 10 ∧
    (answer_question env st question rd).2.buffer
      = some (get_memory env.readFails st.buffer st.dbRows
          ++ [⟨Role.user, question⟩, ⟨Role.assistant, substitutedAnswer env.gen⟩]) := by
  constructor
  · rw [hb]
    exact Nat.le_trans (seedBuffer_length_le _) (load_history_length_le _ _ _)
  · simp only [answer_question]
    rw [if_neg (by simp [hnc1]), if_neg (by simp [hnc2])]

/-- Witness for the amended C8 on a fresh session. -/
theorem buffer_seeded_bounded_but_grows_witness :
    ((⟨none, none, [⟨1, "user", "m1"⟩]⟩ : SessionState).buffer = none) ∧
    (forgetTriggers.any
        (fun cmd => strContains (pyStrip (pyLower "ola")) cmd) = false) ∧
    (whichDocTriggers.any
        (fun cmd => strContains (pyStrip (pyLower "ola")) cmd) = false) ∧
    ((get_memory false none [⟨1, "user", "m1"⟩]).length ≤ 10 ∧
    (answer_question ⟨[], .ok "resposta", false, false, fun _ => none⟩
        ⟨none, none, [⟨1, "user", "m1"⟩]⟩ "ola" none).2.buffer
      = some (get_memory false none [⟨1, "user", "m1"⟩]
          ++ [⟨Role.user, "ola"⟩, ⟨Role.assistant, substitutedAnswer (.ok "resposta")⟩])) :=
  ⟨rfl, by decide, by decide,
    buffer_seeded_bounded_but_grows ⟨[], .ok "resposta", false, false, fun _ => none⟩
      ⟨none, none, [⟨1, "user", "m1"⟩]⟩ "ola" none rfl (by decide) (by decide)⟩

/-- Ten durable turns for the C8 counterexample session. -/
def tenTurns : List HistTurn :=
  [⟨1, "user", "m1"⟩, ⟨2, "assistant", "m2"⟩, ⟨3, "user", "m3"⟩, ⟨4, "assistant", "m4"⟩,
   ⟨5, "user", "m5"⟩, ⟨6, "assistant", "m6"⟩, ⟨7, "user", "m7"⟩, ⟨8, "assistant", "m8"⟩,
   ⟨9, "user", "m9"⟩, ⟨10, "assistant", "m10"⟩]

/-- Counterexample to C8 as stated: a buffer seeded with the session's 10
stored turns grows to 12 turns after a single answered question, exceeding
the claimed 10-turn bound. -/
theorem buffer_exceeds_ten_after_one_exchange :
    ((answer_question ⟨[], .ok "resposta", false, false, fun _ => none⟩
        ⟨none, none, tenTurns⟩ "ola" none).2.buffer.map List.length) = some 12 ∧
    10 < 12 := by
  decide

/-! ## Claim C9: durable-store errors -/

/-- Claim C9: a durable-store error while reading history is treated as empty
history (no exception propagates), and a durable-store error while appending
is swallowed: `answer_question` still returns normally, the durable rows are
unchanged, and the in-memory buffer still records both messages of the
exchange. -/
theorem db_errors_swallowed (rows : List HistTurn) (limit : Nat) (role content : String)
    (env : Env) (st : SessionState) (question : String) (rd : Option String)
    (hnc1 : forgetTriggers.any (fun cmd => strContains (pyStrip (pyLower question)) cmd) = false)
    (hnc2 : whichDocTriggers.any (fun cmd => strContains (pyStrip (pyLower question)) cmd) = false)
    (hw : env.writeFails = true) :
    load_history_from_db true rows limit = [] ∧
    save_message_to_db true rows role content = rows ∧
    (answer_question env st question rd).2.dbRows = st.dbRows ∧
    (answer_question env st question rd).2.buffer
      = some (get_memory env.readFails st.buffer st.dbRows
          ++ [⟨Role.user, question⟩, ⟨Role.assistant, substitutedAnswer env.gen⟩]) := by
  refine ⟨rfl, rfl, ?_, ?_⟩
  · simp only [answer_question]
    rw [if_neg (by simp [hnc1]), if_neg (by simp [hnc2])]
    show save_message_to_db env.writeFails
        (save_message_to_db env.writeFails st.dbRows "user" question) "assistant" _
      = st.dbRows
    rw [hw]
    rfl
  · simp only [answer_question]
    rw [if_neg (by simp [hnc1]), if_neg (by simp [hnc2])]

/-- Witness for C9: a request whose two history writes both fail leaves the
table untouched while the buffer gains both turns. -/
theorem db_errors_swallowed_witness :
    (forgetTriggers.any
        (fun cmd => strContains (pyStrip (pyLower "ola")) cmd) = false) ∧
    (whichDocTriggers.any
        (fun cmd => strContains (pyStrip (pyLower "ola")) cmd) = false) ∧
    ((⟨[], .ok "resposta", false, true, fun _ => none⟩ : Env).writeFails = true) ∧
    (load_history_from_db true [⟨1, "user", "x"⟩] 10 = [] ∧
    save_message_to_db true [⟨1, "user", "x"⟩] "user" "y" = [⟨1, "user", "x"⟩] ∧
    (answer_question ⟨[], .ok "resposta", false, true, fun _ => none⟩
        ⟨none, none, [⟨1, "user", "x"⟩]⟩ "ola" none).2.dbRows
      = (⟨none, none, [⟨1, "user", "x"⟩]⟩ : SessionState).dbRows ∧
    (answer_question ⟨[], .ok "resposta", false, true, fun _ => none⟩
        ⟨none, none, [⟨1, "user", "x"⟩]⟩ "ola" none).2.buffer
      = some (get_memory false none [⟨1, "user", "x"⟩]
          ++ [⟨Role.user, "ola"⟩, ⟨Role.assistant, substitutedAnswer (.ok "resposta")⟩])) :=
  ⟨by decide, by decide, rfl,
    db_errors_swallowed [⟨1, "user", "x"⟩] 10 "user" "y"
      ⟨[], .ok "resposta", false, true, fun _ => none⟩
      ⟨none, none, [⟨1, "user", "x"⟩]⟩ "ola" none (by decide) (by decide) rfl⟩

/-! ## Claim C7: the history render / re-parse round trip -/

/-- Does the list end in a (non-whitespace) character?  `false` for `[]`. -/
def lastNotSpace (l : List Char) : Bool :=
  match l.getLast? with
  | some c => !isSpaceC c
  | none => false

/-- Contents for which the render/re-parse round trip is exact: no embedded
newline, and nonempty without trailing whitespace (`str.strip` of the
rendered line would otherwise lose trailing characters, or drop an empty
turn entirely). -/
def RoundTripSafe (s : String) : Prop :=
  ('\n' ∉ s.data) ∧ lastNotSpace s.data = true

instance (s : String) : Decidable (RoundTripSafe s) :=
  inferInstanceAs (Decidable (('\n' ∉ s.data) ∧ lastNotSpace s.data = true))

lemma roundTripSafe_ne_nil {s : String} (h : RoundTripSafe s) : s.data ≠ [] := by
  intro hc
  rcases h with ⟨-, h2⟩
  rw [hc] at h2
  exact Bool.false_ne_true h2

lemma roundTripSafe_last {s : String} (h : RoundTripSafe s) :
    ∀ c, s.data.getLast? = some c → isSpaceC c = false := by
  intro c hc
  rcases h with ⟨-, h2⟩
  unfold lastNotSpace at h2
  rw [hc] at h2
  simpa using h2

lemma splitNlL_no_newline (l : List Char) (h : '\n' ∉ l) : splitNlL l = [l] := by
  induction l with
  | nil => rfl
  | cons c cs ih =>
      simp only [List.mem_cons, not_or] at h
      have hc : (c == '\n') = false := by
        cases hbe : c == '\n'
        · rfl
        · exact absurd (eq_of_beq hbe).symm h.1
      simp only [splitNlL, hc, Bool.false_eq_true, if_false]
      rw [ih h.2]
      rfl

lemma splitNlL_append (l rest : List Char) (h : '\n' ∉ l) :
    splitNlL (l ++ '\n' :: rest) = l :: splitNlL rest := by
  induction l with
  | nil => simp [splitNlL]
  | cons c cs ih =>
      simp only [List.mem_cons, not_or] at h
      have hc : (c == '\n') = false := by
        cases hbe : c == '\n'
        · rfl
        · exact absurd (eq_of_beq hbe).symm h.1
      simp only [List.cons_append, splitNlL, hc, Bool.false_eq_true, if_false]
      rw [List.append_eq, ih h.2]
      rfl

lemma joinNlL_cons_cons (l l2 : List Char) (ls : List (List Char)) :
    joinNlL (l :: l2 :: ls) = l ++ '\n' :: joinNlL (l2 :: ls) := rfl

lemma splitNlL_joinNlL (ls : List (List Char)) (hne : ls ≠ [])
    (hnl : ∀ l ∈ ls, '\n' ∉ l) : splitNlL (joinNlL ls) = ls := by
  induction ls with
  | nil => exact absurd rfl hne
  | cons l ls ih =>
      cases ls with
      | nil => exact splitNlL_no_newline l (hnl l (List.mem_cons_self _ _))
      | cons l2 ls2 =>
          rw [joinNlL_cons_cons, splitNlL_append l _ (hnl l (List.mem_cons_self _ _)),
            ih (by simp) (fun x hx => hnl x (List.mem_cons_of_mem _ hx))]

lemma trimL_eq_self (l : List Char) (hne : l ≠ [])
    (hhead : ∀ c, l.head? = some c → isSpaceC c = false)
    (hlast : ∀ c, l.getLast? = some c → isSpaceC c = false) :
    trimL l = l := by
  obtain ⟨a, as, rfl⟩ := List.exists_cons_of_ne_nil hne
  have h1 : (a :: as).dropWhile isSpaceC = a :: as := by
    rw [List.dropWhile_cons, if_neg]
    simp [hhead a rfl]
  unfold trimL
  rw [h1]
  obtain ⟨b, bs, hb⟩ := List.exists_cons_of_ne_nil
    (show (a :: as).reverse ≠ [] by simp)
  have hbl : (a :: as).getLast? = some b := by
    rw [← List.head?_reverse, hb]
    rfl
  rw [hb, List.dropWhile_cons, if_neg (by simp [hlast b hbl]), ← hb, List.reverse_reverse]

lemma isPrefL_append_self (p r : List Char) : isPrefL p (p ++ r) = true := by
  induction p with
  | nil => rfl
  | cons a as ih => simp [isPrefL, ih]

lemma parseLines_cons_user (content : String) (ls : List (List Char))
    (hsafe : RoundTripSafe content) :
    parseLines ((("Human: ").data ++ content.data) :: ls)
      = ⟨Role.user, content⟩ :: parseLines ls := by
  have hne := roundTripSafe_ne_nil hsafe
  have hlast := roundTripSafe_last hsafe
  have htrim : trimL (("Human: ").data ++ content.data)
      = ("Human: ").data ++ content.data := by
    apply trimL_eq_self
    · exact fun hc => List.cons_ne_nil _ _ hc
    · intro c hc
      cases hc
      rfl
    · intro c hc
      rw [List.getLast?_append_of_ne_nil _ hne] at hc
      exact hlast c hc
  simp only [parseLines, htrim]
  rw [if_pos (isPrefL_append_self _ _), List.drop_left]

lemma parseLines_cons_ai (content : String) (ls : List (List Char))
    (hsafe : RoundTripSafe content) :
    parseLines ((("AI: ").data ++ content.data) :: ls)
      = ⟨Role.assistant, content⟩ :: parseLines ls := by
  have hne := roundTripSafe_ne_nil hsafe
  have hlast := roundTripSafe_last hsafe
  have htrim : trimL (("AI: ").data ++ content.data)
      = ("AI: ").data ++ content.data := by
    apply trimL_eq_self
    · exact fun hc => List.cons_ne_nil _ _ hc
    · intro c hc
      cases hc
      rfl
    · intro c hc
      rw [List.getLast?_append_of_ne_nil _ hne] at hc
      exact hlast c hc
  simp only [parseLines, htrim]
  rw [if_neg (by intro hcontra; simp [isPrefL] at hcontra),
    if_pos (isPrefL_append_self _ _), List.drop_left]

lemma parseLines_map (buf : List Msg) (h : ∀ m ∈ buf, RoundTripSafe m.content) :
    parseLines (buf.map lineOfMsg) = buf := by
  induction buf with
  | nil => rfl
  | cons m rest ih =>
      have hm := h m (List.mem_cons_self _ _)
      have ht := ih (fun x hx => h x (List.mem_cons_of_mem _ hx))
      rw [List.map_cons]
      obtain ⟨role, content⟩ := m
      cases role with
      | user => exact (parseLines_cons_user content _ hm).trans (by rw [ht])
      | assistant => exact (parseLines_cons_ai content _ hm).trans (by rw [ht])

lemma joinNlL_cons_ne_nil (l : List Char) (ls : List (List Char)) (hl : l ≠ []) :
    joinNlL (l :: ls) ≠ [] := by
  cases ls with
  | nil => exact hl
  | cons l2 ls2 =>
      rw [joinNlL_cons_cons]
      intro hcontra
      rw [List.append_eq_nil] at hcontra
      exact List.cons_ne_nil _ _ hcontra.2

lemma lineOfMsg_ne_nil (m : Msg) : lineOfMsg m ≠ [] := by
  obtain ⟨role, content⟩ := m
  cases role <;> exact fun hc => List.cons_ne_nil _ _ hc

/-- Claim C7 (amended): for turn contents with no embedded newline that are
nonempty and do not end in whitespace, re-parsing the rendered history text
with the orchestrator's line-splitting logic reconstructs exactly the
appended (role, content) pairs, in order.  (An empty content, or one ending
in whitespace, is altered or dropped by the `strip` in the re-parsing loop —
see the counterexample.) -/
theorem history_roundtrip (buf : List Msg)
    (h : ∀ m ∈ buf, RoundTripSafe m.content) :
    parseHistory (render_history_text buf) = buf := by
  cases buf with
  | nil => rfl
  | cons m rest =>
      have hnl : ∀ l ∈ (m :: rest).map lineOfMsg, '\n' ∉ l := by
        intro l hl
        obtain ⟨x, hx, rfl⟩ := List.mem_map.mp hl
        have hsafe := h x hx
        obtain ⟨role, content⟩ := x
        intro hmem
        simp only [lineOfMsg] at hmem
        rcases List.mem_append.mp hmem with h1 | h1
        · cases role
          · exact absurd h1 (by decide)
          · exact absurd h1 (by decide)
        · exact hsafe.1 h1
      have hjoin_ne : joinNlL ((m :: rest).map lineOfMsg) ≠ [] := by
        rw [List.map_cons]
        exact joinNlL_cons_ne_nil _ _ (lineOfMsg_ne_nil m)
      show parseHistory (String.mk (joinNlL ((m :: rest).map lineOfMsg))) = m :: rest
      unfold parseHistory
      rw [if_neg (by simpa [List.isEmpty_iff] using hjoin_ne)]
      rw [show (String.mk (joinNlL ((m :: rest).map lineOfMsg))).data
            = joinNlL ((m :: rest).map lineOfMsg) from rfl]
      rw [splitNlL_joinNlL _ (by simp) hnl, parseLines_map _ h]

/-- Witness for the amended C7: one ordinary exchange round-trips exactly. -/
theorem history_roundtrip_witness :
    (∀ m ∈ [(⟨Role.user, "oi"⟩ : Msg), ⟨Role.assistant, "olá!"⟩], RoundTripSafe m.content) ∧
    parseHistory (render_history_text [⟨Role.user, "oi"⟩, ⟨Role.assistant, "olá!"⟩])
      = [⟨Role.user, "oi"⟩, ⟨Role.assistant, "olá!"⟩] :=
  ⟨by decide, history_roundtrip _ (by decide)⟩

/-- Counterexample to C7 as stated: an empty content has no embedded newline,
yet its rendered line `"Human: "` is stripped to `"Human:"` by the re-parsing
loop, matches neither role prefix, and the turn is lost. -/
theorem history_roundtrip_cex :
    ('\n' ∉ ("" : String).data) ∧
    render_history_text [⟨Role.user, ""⟩] = "Human: " ∧
    parseHistory (render_history_text [⟨Role.user, ""⟩]) = [] ∧
    (([] : List Msg) ≠ [⟨Role.user, ""⟩]) := by
  decide

/-! ## Counterexample for C2: the assembled context exceeds the budget -/

/-- A 1000-character chunk text. -/
def longA : String := String.mk (List.replicate 1000 'a')

/-- Another 1000-character chunk text. -/
def longB : String := String.mk (List.replicate 1000 'b')

/-- Two stored 1000-character chunks of one document, both at distance `1/2`
(similarity `1/2`) from the query. -/
def cexChunks : List ChunkRow :=
  [⟨longA, "t1", "s1", "d", mkRat 1 2⟩, ⟨longB, "t2", "s2", "d", mkRat 1 2⟩]

lemma one_sub_half : (1 : ℚ) - mkRat 1 2 = mkRat 1 2 := by
  norm_num [Rat.mkRat_eq_divInt, Rat.divInt_eq_div]

set_option maxRecDepth 10000 in
lemma cex_search_eval :
    search_similar_chunks cexChunks TOP_K none
      = [⟨longA, "t1", "s1", "d", mkRat 1 2⟩, ⟨longB, "t2", "s2", "d", mkRat 1 2⟩] := by
  show ((sortByDist cexChunks).take TOP_K).map toResult = _
  have hsort : (sortByDist cexChunks).take TOP_K = cexChunks := by decide
  rw [hsort]
  simp only [cexChunks, List.map_cons, List.map_nil, toResult, one_sub_half]

lemma answer_question_context_size (env : Env) (st : SessionState) (question : String)
    (rd : Option String)
    (hnc1 : forgetTriggers.any (fun cmd => strContains (pyStrip (pyLower question)) cmd) = false)
    (hnc2 : whichDocTriggers.any (fun cmd => strContains (pyStrip (pyLower question)) cmd) = false) :
    (answer_question env st question rd).1.context_size
      = contextSizeOf (search_similar_chunks env.chunks TOP_K (priorityOf rd st.pin)) := by
  simp only [answer_question]
  rw [if_neg (by simp [hnc1]), if_neg (by simp [hnc2])]

set_option maxRecDepth 10000 in
/-- Counterexample to C2 as stated: two 1000-character chunks fit the
2000-character budget exactly (the accumulated total is 2000), but the
assembled context string joins them with `"\n\n"` and reaches 2002
characters, exceeding the budget. -/
theorem context_size_exceeds_budget :
    (answer_question ⟨cexChunks, .ok "resposta", false, false, fun _ => none⟩
        ⟨none, none, []⟩ "ola" none).1.context_size = 2002 ∧
    MAX_CONTEXT_CHARS < 2002 := by
  constructor
  · rw [answer_question_context_size _ _ _ _ (by decide) (by decide)]
    show contextSizeOf (search_similar_chunks cexChunks TOP_K (priorityOf none none)) = 2002
    rw [show priorityOf none none = (none : Option String) from rfl, cex_search_eval]
    decide
  · decide

end RagService
